import Mathlib

/-!
# Explorer++ : directory modification handler

A shallow embedding of `ShellBrowser/DirectoryModificationHandler.cpp`
(`CShellBrowser::OnShellNotify`, `AddItem`, `RemoveItem`, `ModifyItem`,
`RenameItem`) together with the parts of the Win32 list-view and shell API
they use.

* `std::unordered_map<int, ItemInfo_t>` is an association list; `at` is the
  first entry with the key and throws `out_of_range` when there is none.
* `ULARGE_INTEGER` arithmetic is arithmetic on `Nat` modulo `2 ^ 64`.
* The list-view control is the list of its rows; a row carries its `lParam`
  and the state bits the handler reads or writes.
* Calls that leave the class (the message to the owner, the empty-folder
  background, the column task queue) are recorded, in order, in `trace`.
* Answers of the shell and of the filesystem are read from a `Shell` record.
-/

namespace ExplorerPP

/-! ## Shell identifiers -/

/-- An item-identifier list (`PIDLIST_ABSOLUTE` / `PITEMID_CHILD`): the sequence
of its item identifiers. -/
abbrev PIDL := List Nat

/-- Win32 `ILIsParent(pidl1, pidl2, fImmediate)`: `pidl1` is a parent of
`pidl2`; with `fImmediate` it has to be the immediate parent. -/
def ILIsParent (pidl1 pidl2 : PIDL) (fImmediate : Bool) : Bool :=
  if fImmediate then
    pidl2.length == pidl1.length + 1 && pidl2.take pidl1.length == pidl1
  else
    pidl2.take pidl1.length == pidl1

/-- Win32 `ILCombine`. -/
def ILCombine (pidl1 pidl2 : PIDL) : PIDL := pidl1 ++ pidl2

def SHGDN_INFOLDER : Nat := 0x1
def SHGDN_FORPARSING : Nat := 0x8000

def SHCNE_RENAMEITEM : Nat := 0x1
def SHCNE_CREATE : Nat := 0x2
def SHCNE_DELETE : Nat := 0x4
def SHCNE_MKDIR : Nat := 0x8
def SHCNE_RMDIR : Nat := 0x10
def SHCNE_ATTRIBUTES : Nat := 0x800
def SHCNE_UPDATEDIR : Nat := 0x1000
def SHCNE_UPDATEITEM : Nat := 0x2000
def SHCNE_RENAMEFOLDER : Nat := 0x20000

def FILE_ATTRIBUTE_HIDDEN : Nat := 0x2
def FILE_ATTRIBUTE_DIRECTORY : Nat := 0x10

/-! ## Data model -/

structure WIN32_FIND_DATA where
  dwFileAttributes : Nat
  nFileSizeHigh : Nat
  nFileSizeLow : Nat
  cFileName : String
  deriving DecidableEq, Repr

structure ItemInfo_t where
  pidlComplete : PIDL
  pridl : PIDL
  wfd : WIN32_FIND_DATA
  szDisplayName : String
  deriving DecidableEq, Repr

/-- One row of the list-view control. `lParam` is the internal item id;
`selected` and `cut` are the `LVIS_SELECTED` and `LVIS_CUT` state bits,
`overlay` the bits under `LVIS_OVERLAYMASK`. -/
structure LVITEM where
  lParam : Int
  selected : Bool
  cut : Bool
  overlay : Nat
  iImage : Nat
  pszText : String
  deriving DecidableEq, Repr

structure DroppedFile_t where
  szFileName : String
  deriving DecidableEq, Repr

structure Column_t where
  id : Nat
  bChecked : Bool
  deriving DecidableEq, Repr

structure AwaitingAdd_t where
  iItem : Int
  iItemInternal : Int
  bPosition : Bool
  deriving DecidableEq, Repr

/-- The view modes of `ViewModes.cpp`. -/
inductive ViewMode where
  | VM_THUMBNAILS | VM_TILES | VM_EXTRALARGEICONS | VM_LARGEICONS
  | VM_ICONS | VM_SMALLICONS | VM_LIST | VM_DETAILS
  deriving DecidableEq, Repr

/-- What leaves the class, in the order it happens. -/
inductive Effect where
  /-- The call `SendMessage(m_hOwner, WM_USER_DIRECTORYMODIFIED, m_ID, 0)`. -/
  | DirectoryModified (id : Int)
  /-- The call `ApplyFolderEmptyBackgroundImage(b)`. -/
  | FolderEmptyBackgroundImage (b : Bool)
  /-- The call `QueueColumnTask(iItemInternal, columnId)`. -/
  | ColumnTask (iItemInternal : Int) (columnId : Nat)
  deriving DecidableEq, Repr

/-- C++ exceptions the handler can raise. -/
inductive Exception where
  /-- Thrown by `std::unordered_map::at` for a key that is not in the map. -/
  | out_of_range
  deriving DecidableEq, Repr

/-- The members of `CShellBrowser` the handler reads or writes. -/
structure CShellBrowser where
  m_pidlDirectory : PIDL
  m_ID : Int
  m_bVirtualFolder : Bool
  m_bInsertSorted : Bool
  m_bShowInGroups : Bool
  m_bApplyFilter : Bool
  m_ViewMode : ViewMode
  m_pActiveColumnList : Option (List Column_t)
  m_DroppedFileNameList : List DroppedFile_t
  m_itemInfoMap : List (Int × ItemInfo_t)
  m_nTotalItems : Int
  m_ulTotalDirSize : Nat
  m_ulFileSelectionSize : Nat
  m_hListView : List LVITEM
  m_AwaitingAddList : List AwaitingAdd_t
  trace : List Effect
  deriving DecidableEq, Repr

/-- The answers of the shell and of the filesystem during one notification. -/
structure Shell where
  /-- The call `SHBindToParent(pidl, ..., &pidlRelative)`: the relative
  identifier on success. -/
  SHBindToParent : PIDL → Option PIDL
  /-- The call `pShellFolder->GetDisplayNameOf(pidlRelative, flags, &str)` on
  the parent folder of `pidl`: arguments `pidl`, `pidlRelative`, `flags`. -/
  GetDisplayNameOf : PIDL → PIDL → Nat → Option String
  /-- The helper `GetDisplayName(pidl, buffer, size, flags)`. -/
  GetDisplayName : PIDL → Nat → Option String
  /-- The call `SHGetFileInfo(pidl, ..., SHGFI_PIDL | SHGFI_ICON |
  SHGFI_OVERLAYINDEX)`: `shfi.iIcon` when the result is not zero. -/
  SHGetFileInfo : PIDL → Option Nat
  /-- The call `FindFirstFile(path, &wfd)`: the data written to `wfd` when the
  handle is valid; on `INVALID_HANDLE_VALUE` the buffer is left as it was. -/
  FindFirstFile : String → Option WIN32_FIND_DATA
  /-- The find data the shell holds for a new item (read by
  `SetItemInformation`). -/
  GetFindData : PIDL → WIN32_FIND_DATA
  /-- The filter predicate of the view on one record (`IsFileFiltered`). -/
  IsFileFiltered : ItemInfo_t → Bool
  /-- The active sort comparator: the first record does not sort after the
  second. -/
  SortLE : ItemInfo_t → ItemInfo_t → Bool

/-- A decoded change notification: what `SHChangeNotification_Lock` hands
out. -/
structure Notification where
  event : Nat
  pidl0 : PIDL
  pidl1 : PIDL
  deriving DecidableEq, Repr

/-! ## 64-bit unsigned arithmetic -/

/-- The member `ULARGE_INTEGER::QuadPart` of a value whose `LowPart` and `HighPart` were
assigned from two `DWORD`s. -/
def QuadPart (LowPart HighPart : Nat) : Nat :=
  (HighPart % 4294967296) * 4294967296 + LowPart % 4294967296

/-- Unsigned 64-bit `a -= b`. -/
def sub64 (a b : Nat) : Nat := (a + 18446744073709551616 - b % 18446744073709551616) % 18446744073709551616

/-- Unsigned 64-bit `a += b`. -/
def add64 (a b : Nat) : Nat := (a + b) % 18446744073709551616

/-- The file size of a record, as the handler reads it. -/
def fileSize (info : ItemInfo_t) : Nat :=
  QuadPart info.wfd.nFileSizeLow info.wfd.nFileSizeHigh

/-! ## `std::unordered_map<int, ItemInfo_t>` -/

/-- The member `at(key)`. -/
def map_at (m : List (Int × ItemInfo_t)) (key : Int) : Except Exception ItemInfo_t :=
  match m with
  | [] => .error .out_of_range
  | (k, v) :: rest => if k = key then .ok v else map_at rest key

/-- The member `erase(key)`. -/
def map_erase (m : List (Int × ItemInfo_t)) (key : Int) : List (Int × ItemInfo_t) :=
  match m with
  | [] => []
  | (k, v) :: rest => if k = key then rest else (k, v) :: map_erase rest key

/-- Assignment through the reference `at(key)`: `f` is applied to the record
stored under `key`. -/
def map_modify (m : List (Int × ItemInfo_t)) (key : Int) (f : ItemInfo_t → ItemInfo_t) :
    List (Int × ItemInfo_t) :=
  match m with
  | [] => []
  | (k, v) :: rest => if k = key then (k, f v) :: rest else (k, v) :: map_modify rest key f

/-- Sum of the file sizes of all records of the map, in 64-bit unsigned
arithmetic. -/
def sumFileSize (m : List (Int × ItemInfo_t)) : Nat :=
  (m.map (fun kv => fileSize kv.2)).sum % 18446744073709551616

/-! ## The list-view control -/

/-- The macro `ListView_FindItem(hwnd, -1, &lvfi)` with `lvfi.flags = LVFI_PARAM`:
index of the first row with the given `lParam`, or `-1`. -/
def ListView_FindItem (lv : List LVITEM) (lParam : Int) : Int :=
  match lv with
  | [] => -1
  | it :: rest =>
    if it.lParam = lParam then 0
    else
      let r := ListView_FindItem rest lParam
      if r = -1 then -1 else r + 1

/-- The macro `ListView_DeleteItem(hwnd, iItem)`. -/
def ListView_DeleteItem (lv : List LVITEM) (iItem : Int) : List LVITEM :=
  if iItem < 0 then lv else lv.eraseIdx iItem.toNat

/-- The macro `ListView_GetItemCount(hwnd)`. -/
def ListView_GetItemCount (lv : List LVITEM) : Int := lv.length

/-- The test `ListView_GetItemState(hwnd, iItem, LVIS_SELECTED) == LVIS_SELECTED`. -/
def ListView_IsSelected (lv : List LVITEM) (iItem : Int) : Bool :=
  if iItem < 0 then false
  else
    match lv[iItem.toNat]? with
    | some it => it.selected
    | none => false

/-- Apply `f` to the row with index `iItem`, if there is one. -/
def ListView_update (lv : List LVITEM) (iItem : Int) (f : LVITEM → LVITEM) : List LVITEM :=
  if iItem < 0 then lv else lv.modify f iItem.toNat

/-- The macro `INDEXTOOVERLAYMASK(i)`. -/
def INDEXTOOVERLAYMASK (i : Nat) : Nat := i <<< 8

/-- The macro `ListView_InsertItem`: a new row at index `iItem`; an index past
the end appends. -/
def ListView_InsertItem (lv : List LVITEM) (iItem : Int) (it : LVITEM) : List LVITEM :=
  if iItem < 0 ∨ (lv.length : Int) ≤ iItem then lv ++ [it] else lv.insertIdx iItem.toNat it

/-! ## Helpers of the class that the handler calls -/

/-- Modelled from the spec: `LocateFileItemInternalIndex` is not in the handler's
file. It is the Item Store's `findByPath(path) -> internalId | NotFound`: the
internal id of the first record whose path is `pidl`, or the sentinel `-1`. -/
def LocateFileItemInternalIndex (s : CShellBrowser) (pidl : PIDL) : Int :=
  match s.m_itemInfoMap.find? (fun kv => kv.2.pidlComplete == pidl) with
  | some kv => kv.1
  | none => -1

/-- Modelled from the spec: `ApplyFolderEmptyBackgroundImage` is not in the
handler's file. It is the outbound "empty view" presentation toggle; the call is
recorded. -/
def ApplyFolderEmptyBackgroundImage (s : CShellBrowser) (b : Bool) : CShellBrowser :=
  { s with trace := s.trace ++ [Effect.FolderEmptyBackgroundImage b] }

/-- Modelled from the spec: `QueueColumnTask` is not in the handler's file. It
puts a request `(itemId, columnId)` on the background column-computation queue;
the call is recorded. -/
def QueueColumnTask (s : CShellBrowser) (iItemInternal : Int) (columnId : Nat) : CShellBrowser :=
  { s with trace := s.trace ++ [Effect.ColumnTask iItemInternal columnId] }

/-- Modelled from the spec: `IsFileFiltered` is not in the handler's file. It
re-evaluates the (external) filter predicate on the record of the item. -/
def IsFileFiltered (env : Shell) (s : CShellBrowser) (iItemInternal : Int) : Except Exception Bool :=
  match map_at s.m_itemInfoMap iItemInternal with
  | .error e => .error e
  | .ok info => .ok (env.IsFileFiltered info)

/-- Modelled from the spec: `RemoveFilteredItem` is not in the handler's file.
It removes the item from the displayed view. -/
def RemoveFilteredItem (s : CShellBrowser) (iItem : Int) (_iItemInternal : Int) : CShellBrowser :=
  { s with m_hListView := ListView_DeleteItem s.m_hListView iItem }

/-- Modelled from the spec: `ProcessItemFileName(getBasicItemInfo(id),
CreatePreferencesStructure())` is not in the handler's file. It is the text
shown for the item: its display name. -/
def ProcessItemFileName (s : CShellBrowser) (iItemInternal : Int) : Except Exception String :=
  match map_at s.m_itemInfoMap iItemInternal with
  | .error e => .error e
  | .ok info => .ok info.szDisplayName

/-- An internal id no record of the map uses. -/
def freshItemId (m : List (Int × ItemInfo_t)) : Int :=
  (m.map (fun kv => kv.1)).foldl max (-1) + 1

/-- Modelled from the spec: `SetItemInformation` is not in the handler's file.
It is the Item Store's `insert(path, displayName) -> internalId`: it allocates
an internal id that is not in use and stores the record of the item under it. -/
def SetItemInformation (env : Shell) (s : CShellBrowser) (pidlDirectory pidlRelative : PIDL)
    (szDisplayName : String) : CShellBrowser × Int :=
  let iItemId := freshItemId s.m_itemInfoMap
  let pidlComplete := ILCombine pidlDirectory pidlRelative
  let info : ItemInfo_t :=
    { pidlComplete := pidlComplete, pridl := pidlRelative,
      wfd := env.GetFindData pidlComplete, szDisplayName := szDisplayName }
  ({ s with m_itemInfoMap := s.m_itemInfoMap ++ [(iItemId, info)] }, iItemId)

/-- The record of the row with index `i`, if the row and its record exist. -/
def rowInfo (s : CShellBrowser) (it : LVITEM) : Option ItemInfo_t :=
  match map_at s.m_itemInfoMap it.lParam with
  | .ok info => some info
  | .error _ => none

/-- Modelled from the spec: `DetermineItemSortedPosition` is not in the handler's
file. It is `resolvePosition`: the ordinal index of the item among the displayed
items under the active sort comparator, found by a linear search for the first
displayed item that sorts after it. -/
def DetermineItemSortedPosition (env : Shell) (s : CShellBrowser) (iItemId : Int) : Int :=
  match map_at s.m_itemInfoMap iItemId with
  | .error _ => ListView_GetItemCount s.m_hListView
  | .ok info =>
    ((s.m_hListView.takeWhile (fun it =>
      match rowInfo s it with
      | some other => env.SortLE other info
      | none => true)).length : Int)

/-- Modelled from the spec: `AddItemInternal(iItemIndex, iItemId, bPosition)` is
not in the handler's file. It defers the insertion of the item at the given
index; the index `-1` stands for the end of the list. -/
def AddItemInternal (s : CShellBrowser) (iItemIndex iItemId : Int) (bPosition : Bool) :
    CShellBrowser :=
  { s with m_AwaitingAddList := s.m_AwaitingAddList ++
      [{ iItem := iItemIndex, iItemInternal := iItemId, bPosition := bPosition }] }

/-- Modelled from the spec: `AddItemInternal(pidlDirectory, pidlRelative,
szFileName, iItemIndex, bPosition)` is not in the handler's file. It stores the
record of the item and defers its insertion. -/
def AddItemInternal_pidl (env : Shell) (s : CShellBrowser) (pidlDirectory pidlRelative : PIDL)
    (szFileName : String) (iItemIndex : Int) (bPosition : Bool) : CShellBrowser :=
  let r := SetItemInformation env s pidlDirectory pidlRelative szFileName
  AddItemInternal r.1 iItemIndex r.2 bPosition

/-- Modelled from the spec: one step of `InsertAwaitingItems`. The deferred item
gets its row (at its index, or at the end), its file size is added to the total
directory size, the item count goes up by one, and the dropped-file markers with
the display name of the item are consumed. -/
def insertAwaitingItem (s : CShellBrowser) (a : AwaitingAdd_t) : CShellBrowser :=
  match map_at s.m_itemInfoMap a.iItemInternal with
  | .error _ => s
  | .ok info =>
    let row : LVITEM :=
      { lParam := a.iItemInternal, selected := false,
        cut := decide (info.wfd.dwFileAttributes &&& FILE_ATTRIBUTE_HIDDEN = FILE_ATTRIBUTE_HIDDEN),
        overlay := 0, iImage := 0, pszText := info.szDisplayName }
    { s with
      m_hListView := ListView_InsertItem s.m_hListView a.iItem row
      m_ulTotalDirSize := add64 s.m_ulTotalDirSize (fileSize info)
      m_nTotalItems := s.m_nTotalItems + 1
      m_DroppedFileNameList :=
        s.m_DroppedFileNameList.filter (fun d => d.szFileName != info.szDisplayName) }

/-- Modelled from the spec: `InsertAwaitingItems` is not in the handler's file.
The deferred insertions are flushed together, in the order they were deferred. -/
def InsertAwaitingItems (s : CShellBrowser) (_bInsertIntoGroup : Bool) : CShellBrowser :=
  let s1 := s.m_AwaitingAddList.foldl insertAwaitingItem s
  { s1 with m_AwaitingAddList := [] }

/-! ## The handler: `DirectoryModificationHandler.cpp` -/

/-- The scan of `m_DroppedFileNameList` in `AddItem`: `bDropped`. -/
def isDropped (l : List DroppedFile_t) (szDisplayName : String) : Bool :=
  match l with
  | [] => false
  | d :: rest => if szDisplayName = d.szFileName then true else isDropped rest szDisplayName

/-- The method `CShellBrowser::AddItem(PCIDLIST_ABSOLUTE pidl)`. -/
def AddItem (env : Shell) (s : CShellBrowser) (pidl : PIDL) : CShellBrowser :=
  match env.SHBindToParent pidl with
  | none => s
  | some pidlRelative =>
    let hr :=
      if s.m_bVirtualFolder then env.GetDisplayNameOf pidl pidlRelative SHGDN_INFOLDER
      else env.GetDisplayNameOf pidl pidlRelative (SHGDN_INFOLDER ||| SHGDN_FORPARSING)
    match hr with
    | none => s
    | some szDisplayName =>
      let bDropped :=
        if !s.m_DroppedFileNameList.isEmpty then isDropped s.m_DroppedFileNameList szDisplayName
        else false
      let s1 :=
        if s.m_bInsertSorted && !bDropped then
          let r := SetItemInformation env s s.m_pidlDirectory pidlRelative szDisplayName
          let iSorted := DetermineItemSortedPosition env r.1 r.2
          AddItemInternal r.1 iSorted r.2 true
        else
          AddItemInternal_pidl env s s.m_pidlDirectory pidlRelative szDisplayName (-1) false
      InsertAwaitingItems s1 s1.m_bShowInGroups

/-- The method `CShellBrowser::RemoveItem(int iItemInternal)`. -/
def RemoveItem_int (s : CShellBrowser) (iItemInternal : Int) : Except Exception CShellBrowser :=
  if iItemInternal = -1 then .ok s
  else
    match map_at s.m_itemInfoMap iItemInternal with
    | .error e => .error e
    | .ok info =>
      let ulFileSize := QuadPart info.wfd.nFileSizeLow info.wfd.nFileSizeHigh
      let s1 := { s with m_ulTotalDirSize := sub64 s.m_ulTotalDirSize ulFileSize }
      let iItem := ListView_FindItem s1.m_hListView iItemInternal
      let s2 :=
        if iItem ≠ -1 then { s1 with m_hListView := ListView_DeleteItem s1.m_hListView iItem }
        else s1
      let s3 := { s2 with m_itemInfoMap := map_erase s2.m_itemInfoMap iItemInternal }
      let nItems := ListView_GetItemCount s3.m_hListView
      let s4 := { s3 with m_nTotalItems := s3.m_nTotalItems - 1 }
      if nItems = 0 ∧ s4.m_bApplyFilter = false then
        .ok (ApplyFolderEmptyBackgroundImage s4 true)
      else .ok s4

/-- The method `CShellBrowser::RemoveItem(PCIDLIST_ABSOLUTE pidl)`. -/
def RemoveItem (s : CShellBrowser) (pidl : PIDL) : Except Exception CShellBrowser :=
  let iItemInternal := LocateFileItemInternalIndex s pidl
  if iItemInternal ≠ -1 then RemoveItem_int s iItemInternal
  else .ok s

/-- The loop over `m_pActiveColumnList` in `ModifyItem`. -/
def queueCheckedColumns (s : CShellBrowser) (iItemInternal : Int) (cols : List Column_t) :
    CShellBrowser :=
  cols.foldl (fun acc c => if c.bChecked then QueueColumnTask acc iItemInternal c.id else acc) s

/-- The block of `ModifyItem` that refreshes the icon overlay of row `iItem`
(`SHGetFileInfo`, `ListView_SetItem`, `DestroyIcon`). -/
def ModifyItem_overlay (env : Shell) (s : CShellBrowser) (pidl : PIDL) (iItem : Int) :
    CShellBrowser :=
  match env.SHGetFileInfo pidl with
  | some iIcon =>
    let lv := ListView_update s.m_hListView iItem
      (fun it => { it with overlay := INDEXTOOVERLAYMASK (iIcon >>> 24) })
    { s with m_hListView := lv }
  | none => s

/-- The block of `ModifyItem` before the re-read: the old file size is taken
away from the total directory size and, when row `iItem` is selected, from the
selection size. -/
def ModifyItem_subtract (s : CShellBrowser) (iItem : Int) (ulFileSize : Nat) : CShellBrowser :=
  { s with
    m_ulTotalDirSize := sub64 s.m_ulTotalDirSize ulFileSize
    m_ulFileSelectionSize :=
      if ListView_IsSelected s.m_hListView iItem then sub64 s.m_ulFileSelectionSize ulFileSize
      else s.m_ulFileSelectionSize }

/-- The body of `if(hFirstFile != INVALID_HANDLE_VALUE)` in `ModifyItem`: `wfd`
is what `FindFirstFile` wrote into the record. -/
def ModifyItem_found (s : CShellBrowser) (iItemInternal iItem : Int) (wfd : WIN32_FIND_DATA) :
    CShellBrowser :=
  let ulFileSize := QuadPart wfd.nFileSizeLow wfd.nFileSizeHigh
  let s1 : CShellBrowser :=
    { s with
      m_itemInfoMap := map_modify s.m_itemInfoMap iItemInternal (fun r => { r with wfd := wfd })
      m_ulTotalDirSize := add64 s.m_ulTotalDirSize ulFileSize
      m_ulFileSelectionSize :=
        if ListView_IsSelected s.m_hListView iItem then add64 s.m_ulFileSelectionSize ulFileSize
        else s.m_ulFileSelectionSize
      m_hListView := ListView_update s.m_hListView iItem (fun it =>
        { it with cut :=
            if wfd.dwFileAttributes &&& FILE_ATTRIBUTE_HIDDEN = FILE_ATTRIBUTE_HIDDEN then true
            else false }) }
  if s1.m_ViewMode = ViewMode.VM_DETAILS then
    match s1.m_pActiveColumnList with
    | some cols => queueCheckedColumns s1 iItemInternal cols
    | none => s1
  else s1

/-- The method `CShellBrowser::ModifyItem(PCIDLIST_ABSOLUTE pidl)`. -/
def ModifyItem (env : Shell) (s : CShellBrowser) (pidl : PIDL) : Except Exception CShellBrowser :=
  let iItemInternal := LocateFileItemInternalIndex s pidl
  if iItemInternal = -1 then .ok s
  else
    let iItem := ListView_FindItem s.m_hListView iItemInternal
    if iItem = -1 then .ok s
    else
      let s1 := ModifyItem_overlay env s pidl iItem
      match map_at s1.m_itemInfoMap iItemInternal with
      | .error e => .error e
      | .ok info =>
        let s2 := ModifyItem_subtract s1 iItem (QuadPart info.wfd.nFileSizeLow info.wfd.nFileSizeHigh)
        let FullFileName := (env.GetDisplayName pidl SHGDN_FORPARSING).getD ""
        match env.FindFirstFile FullFileName with
        | none => .ok s2
        | some wfd => .ok (ModifyItem_found s2 iItemInternal iItem wfd)

/-- The block of `RenameItem` that moves the record to its new identity: the
two identifier lists, the display name and `wfd.cFileName`. -/
def RenameItem_record (s : CShellBrowser) (iItemInternal : Int) (pidlNew pidlRelative : PIDL)
    (szDisplayName : String) : CShellBrowser :=
  { s with m_itemInfoMap := map_modify s.m_itemInfoMap iItemInternal (fun r =>
      { r with
        pidlComplete := pidlNew, pridl := pidlRelative, szDisplayName := szDisplayName,
        wfd := { r.wfd with cFileName := szDisplayName } }) }

/-- The body of `if(iItem != -1)` in `RenameItem`: the row gets its new text,
icon and overlay, and leaves the view when the item is now filtered out. -/
def RenameItem_row (env : Shell) (s : CShellBrowser) (iItemInternal iItem : Int) (iIcon : Nat) :
    Except Exception CShellBrowser :=
  match ProcessItemFileName s iItemInternal with
  | .error e => .error e
  | .ok filename =>
    let s1 : CShellBrowser :=
      { s with m_hListView := ListView_update s.m_hListView iItem (fun it =>
          { it with iImage := iIcon, pszText := filename,
                    overlay := INDEXTOOVERLAYMASK (iIcon >>> 24) }) }
    match IsFileFiltered env s1 iItemInternal with
    | .error e => .error e
    | .ok b => if b then .ok (RemoveFilteredItem s1 iItem iItemInternal) else .ok s1

/-- The method `CShellBrowser::RenameItem(PCIDLIST_ABSOLUTE pidlOld,
PCIDLIST_ABSOLUTE pidlNew)`. -/
def RenameItem (env : Shell) (s : CShellBrowser) (pidlOld pidlNew : PIDL) :
    Except Exception CShellBrowser :=
  let iItemInternal := LocateFileItemInternalIndex s pidlOld
  if iItemInternal = -1 then .ok s
  else
    match env.SHBindToParent pidlNew with
    | none => .ok s
    | some pidlRelative =>
      match env.GetDisplayName pidlNew (SHGDN_INFOLDER ||| SHGDN_FORPARSING) with
      | none => .ok s
      | some szDisplayName =>
        match map_at s.m_itemInfoMap iItemInternal with
        | .error e => .error e
        | .ok _ =>
          let s1 := RenameItem_record s iItemInternal pidlNew pidlRelative szDisplayName
          match env.SHGetFileInfo pidlNew with
          | none => .ok s1
          | some iIcon =>
            let iItem := ListView_FindItem s1.m_hListView iItemInternal
            if iItem ≠ -1 then RenameItem_row env s1 iItemInternal iItem iIcon
            else .ok s1

/-- The `switch (event)` of `CShellBrowser::OnShellNotify`. -/
def OnShellNotify_switch (env : Shell) (s : CShellBrowser) (n : Notification) :
    Except Exception CShellBrowser :=
  if n.event = SHCNE_MKDIR ∨ n.event = SHCNE_CREATE then
    if ILIsParent s.m_pidlDirectory n.pidl0 true then .ok (AddItem env s n.pidl0)
    else .ok s
  else if n.event = SHCNE_RENAMEFOLDER ∨ n.event = SHCNE_RENAMEITEM then
    if ILIsParent s.m_pidlDirectory n.pidl0 true && ILIsParent s.m_pidlDirectory n.pidl1 true then
      RenameItem env s n.pidl0 n.pidl1
    else if ILIsParent s.m_pidlDirectory n.pidl0 true then
      RemoveItem s n.pidl0
    else if ILIsParent s.m_pidlDirectory n.pidl1 true then
      .ok (AddItem env s n.pidl1)
    else .ok s
  else if n.event = SHCNE_UPDATEITEM then
    if ILIsParent s.m_pidlDirectory n.pidl0 true then ModifyItem env s n.pidl0
    else .ok s
  else if n.event = SHCNE_RMDIR ∨ n.event = SHCNE_DELETE then
    if ILIsParent s.m_pidlDirectory n.pidl0 true then RemoveItem s n.pidl0
    else .ok s
  else .ok s

/-- The call `SendMessage(m_hOwner, WM_USER_DIRECTORYMODIFIED, m_ID, 0)`. -/
def SendMessage_DIRECTORYMODIFIED (s : CShellBrowser) : CShellBrowser :=
  { s with trace := s.trace ++ [Effect.DirectoryModified s.m_ID] }

/-- The method `CShellBrowser::OnShellNotify`: the switch, then the message to
the owner. -/
def OnShellNotify (env : Shell) (s : CShellBrowser) (n : Notification) :
    Except Exception CShellBrowser :=
  match OnShellNotify_switch env s n with
  | .error e => .error e
  | .ok s1 => .ok (SendMessage_DIRECTORYMODIFIED s1)

/-! ## A concrete session: `C:\Data` with `a.txt`, `b.txt`, `c.txt` -/

/-- The watched directory `C:\Data`. -/
def pidlData : PIDL := [1, 2]

def pidlA : PIDL := [1, 2, 10]
def pidlB : PIDL := [1, 2, 11]
def pidlC : PIDL := [1, 2, 12]
def pidlNew : PIDL := [1, 3, 20]
def pidlD : PIDL := [1, 2, 14]

def mkInfo (pidl : PIDL) (name : String) (size : Nat) : ItemInfo_t :=
  { pidlComplete := pidl, pridl := pidl.drop 2,
    wfd := { dwFileAttributes := 0x20, nFileSizeHigh := 0, nFileSizeLow := size, cFileName := name },
    szDisplayName := name }

def mkRow (id : Int) (name : String) (sel : Bool) : LVITEM :=
  { lParam := id, selected := sel, cut := false, overlay := 0, iImage := 0, pszText := name }

/-- Three records `a.txt` (10), `b.txt` (20), `c.txt` (5), all displayed, `b.txt`
selected; total size 35, selection size 20; no filter. -/
def session0 : CShellBrowser :=
  { m_pidlDirectory := pidlData, m_ID := 7, m_bVirtualFolder := false, m_bInsertSorted := true,
    m_bShowInGroups := false, m_bApplyFilter := false, m_ViewMode := ViewMode.VM_DETAILS,
    m_pActiveColumnList := some [{ id := 1, bChecked := true }, { id := 2, bChecked := false }],
    m_DroppedFileNameList := [],
    m_itemInfoMap := [(0, mkInfo pidlA "a.txt" 10), (1, mkInfo pidlB "b.txt" 20),
                      (2, mkInfo pidlC "c.txt" 5)],
    m_nTotalItems := 3, m_ulTotalDirSize := 35, m_ulFileSelectionSize := 20,
    m_hListView := [mkRow 0 "a.txt" false, mkRow 1 "b.txt" true, mkRow 2 "c.txt" false],
    m_AwaitingAddList := [], trace := [] }

/-- A shell in which `b.txt` has just been deleted from disk, `a.txt` has grown
to 12 bytes, and `d.txt` (7 bytes) is new. -/
def shell0 : Shell :=
  { SHBindToParent := fun pidl => if pidl.length < 2 then none else some (pidl.drop (pidl.length - 1)),
    GetDisplayNameOf := fun _ rel _ =>
      if rel = [10] then some "a.txt" else if rel = [11] then some "b.txt"
      else if rel = [12] then some "c.txt" else if rel = [14] then some "d.txt"
      else if rel = [20] then some "new.txt" else none,
    GetDisplayName := fun pidl flags =>
      if flags = SHGDN_FORPARSING then
        if pidl = pidlA then some "C:\\Data\\a.txt" else if pidl = pidlB then some "C:\\Data\\b.txt"
        else if pidl = pidlC then some "C:\\Data\\c.txt" else if pidl = pidlD then some "C:\\Data\\d.txt"
        else none
      else
        if pidl = pidlA then some "a.txt" else if pidl = pidlB then some "b.txt"
        else if pidl = pidlC then some "c.txt" else if pidl = pidlD then some "d.txt"
        else none,
    SHGetFileInfo := fun _ => some 3,
    FindFirstFile := fun path =>
      if path = "C:\\Data\\a.txt" then
        some { dwFileAttributes := 0x20, nFileSizeHigh := 0, nFileSizeLow := 12, cFileName := "a.txt" }
      else none,
    GetFindData := fun pidl =>
      if pidl = pidlD then
        { dwFileAttributes := 0x20, nFileSizeHigh := 0, nFileSizeLow := 7, cFileName := "d.txt" }
      else { dwFileAttributes := 0x20, nFileSizeHigh := 0, nFileSizeLow := 0, cFileName := "" },
    IsFileFiltered := fun _ => false,
    SortLE := fun a b => decide (a.wfd.nFileSizeLow ≤ b.wfd.nFileSizeLow) }

/-- A rename of `b.txt` out of the watched directory, to `C:\Other\new.txt`. -/
def renameOut : Notification := { event := SHCNE_RENAMEITEM, pidl0 := pidlB, pidl1 := pidlNew }

/-- A rename of `C:\Other\new.txt` into the watched directory, as `d.txt`. -/
def renameIn : Notification := { event := SHCNE_RENAMEFOLDER, pidl0 := pidlNew, pidl1 := pidlD }

/-- A create notification for `d.txt`. -/
def createD : Notification := { event := SHCNE_CREATE, pidl0 := pidlD, pidl1 := [] }

/-- A delete notification for `C:\Other\new.txt`, which is not in the watched
directory. -/
def deleteElsewhere : Notification := { event := SHCNE_DELETE, pidl0 := pidlNew, pidl1 := [] }

/-- Number of messages `WM_USER_DIRECTORYMODIFIED` in a trace. -/
def signalCount (tr : List Effect) : Nat :=
  tr.countP (fun e => match e with
    | Effect.DirectoryModified _ => true
    | _ => false)

/-- A session showing the single file `a.txt`. -/
def session1 : CShellBrowser :=
  { session0 with
    m_itemInfoMap := [(0, mkInfo pidlA "a.txt" 10)], m_nTotalItems := 1,
    m_ulTotalDirSize := 10, m_ulFileSelectionSize := 0,
    m_hListView := [mkRow 0 "a.txt" false] }

/-- The session `session0` after `d.txt` was dropped into the folder: sorted
insertion is enabled and a dropped-file marker is waiting for `d.txt`. -/
def sessionDrop : CShellBrowser :=
  { session0 with m_DroppedFileNameList := [{ szFileName := "x.txt" }, { szFileName := "d.txt" }] }

/-- The shell `shell0` with a filter that hides every item. -/
def shellFiltered : Shell := { shell0 with IsFileFiltered := fun _ => true }

/-- What `RenameItem` writes into the record of the renamed item. -/
def renamedRecord (pidlNew pidlRelative : PIDL) (szDisplayName : String) (r : ItemInfo_t) :
    ItemInfo_t :=
  { r with
    pidlComplete := pidlNew, pridl := pidlRelative, szDisplayName := szDisplayName,
    wfd := { r.wfd with cFileName := szDisplayName } }

/-! ## Basic facts about the map and the trace -/

theorem map_at_of_mem (m : List (Int × ItemInfo_t)) (k : Int) (v : ItemInfo_t)
    (h : (k, v) ∈ m) : ∃ info, map_at m k = .ok info := by
  induction m with
  | nil => simp at h
  | cons hd tl ih =>
    obtain ⟨k0, v0⟩ := hd
    by_cases hk : k0 = k
    · exact ⟨v0, by simp [map_at, hk]⟩
    · have : (k, v) ∈ tl := by
        rcases List.mem_cons.mp h with h1 | h1
        · exact absurd (congrArg Prod.fst h1).symm hk
        · exact h1
      obtain ⟨info, hinfo⟩ := ih this
      exact ⟨info, by simp [map_at, hk, hinfo]⟩

theorem locate_live (s : CShellBrowser) (pidl : PIDL)
    (h : LocateFileItemInternalIndex s pidl ≠ -1) :
    ∃ info, map_at s.m_itemInfoMap (LocateFileItemInternalIndex s pidl) = .ok info := by
  unfold LocateFileItemInternalIndex at h ⊢
  cases hf : s.m_itemInfoMap.find? (fun kv => kv.2.pidlComplete == pidl) with
  | none => simp [hf] at h
  | some kv =>
    simp only [hf]
    exact map_at_of_mem _ kv.1 kv.2 (List.mem_of_find?_eq_some hf)

theorem map_at_modify (m : List (Int × ItemInfo_t)) (k : Int) (f : ItemInfo_t → ItemInfo_t) :
    map_at (map_modify m k f) k = (map_at m k).map f := by
  induction m with
  | nil => rfl
  | cons hd tl ih =>
    obtain ⟨k0, v0⟩ := hd
    by_cases hk : k0 = k
    · simp [map_at, map_modify, hk, Except.map]
    · simp [map_at, map_modify, hk, ih]

/-- The step from `s` to `t` keeps `m_ID` and adds to the trace only calls other
than the message to the owner. -/
def QuietStep (s t : CShellBrowser) : Prop :=
  t.m_ID = s.m_ID ∧
    ∃ ops, t.trace = s.trace ++ ops ∧ ∀ e ∈ ops, ∀ id, e ≠ Effect.DirectoryModified id

theorem QuietStep.rfl_of (s t : CShellBrowser) (h1 : t.m_ID = s.m_ID) (h2 : t.trace = s.trace) :
    QuietStep s t :=
  ⟨h1, [], by simp [h2], by simp⟩

theorem QuietStep.trans_of {s t u : CShellBrowser} (h1 : QuietStep s t) (h2 : QuietStep t u) :
    QuietStep s u := by
  obtain ⟨a1, o1, b1, c1⟩ := h1
  obtain ⟨a2, o2, b2, c2⟩ := h2
  refine ⟨a2.trans a1, o1 ++ o2, by simp [b2, b1], ?_⟩
  intro e he
  rcases List.mem_append.mp he with h | h
  · exact c1 e h
  · exact c2 e h

theorem insertAwaitingItem_frame (s : CShellBrowser) (a : AwaitingAdd_t) :
    (insertAwaitingItem s a).m_ID = s.m_ID ∧ (insertAwaitingItem s a).trace = s.trace := by
  unfold insertAwaitingItem
  split <;> simp

theorem foldl_insertAwaitingItem_frame (l : List AwaitingAdd_t) (s : CShellBrowser) :
    (l.foldl insertAwaitingItem s).m_ID = s.m_ID ∧
      (l.foldl insertAwaitingItem s).trace = s.trace := by
  induction l generalizing s with
  | nil => simp
  | cons a tl ih =>
    simp only [List.foldl_cons]
    have h1 := ih (insertAwaitingItem s a)
    have h2 := insertAwaitingItem_frame s a
    exact ⟨h1.1.trans h2.1, h1.2.trans h2.2⟩

theorem InsertAwaitingItems_frame (s : CShellBrowser) (b : Bool) :
    (InsertAwaitingItems s b).m_ID = s.m_ID ∧ (InsertAwaitingItems s b).trace = s.trace := by
  simpa [InsertAwaitingItems] using foldl_insertAwaitingItem_frame s.m_AwaitingAddList s

theorem AddItem_frame (env : Shell) (s : CShellBrowser) (pidl : PIDL) :
    (AddItem env s pidl).m_ID = s.m_ID ∧ (AddItem env s pidl).trace = s.trace := by
  have key : ∀ (s1 : CShellBrowser) (b : Bool), s1.m_ID = s.m_ID → s1.trace = s.trace →
      (InsertAwaitingItems s1 b).m_ID = s.m_ID ∧ (InsertAwaitingItems s1 b).trace = s.trace := by
    intro s1 b h1 h2
    have h := InsertAwaitingItems_frame s1 b
    exact ⟨h.1.trans h1, h.2.trans h2⟩
  unfold AddItem
  cases env.SHBindToParent pidl with
  | none => simp
  | some rel =>
    simp only []
    cases (if s.m_bVirtualFolder = true then env.GetDisplayNameOf pidl rel SHGDN_INFOLDER
      else env.GetDisplayNameOf pidl rel (SHGDN_INFOLDER ||| SHGDN_FORPARSING)) with
    | none => simp
    | some name =>
      simp only []
      apply key
      · (repeat' split) <;> simp [AddItemInternal_pidl, AddItemInternal, SetItemInformation]
      · (repeat' split) <;> simp [AddItemInternal_pidl, AddItemInternal, SetItemInformation]

/-- What `RemoveItem(int)` does to a live item. -/
theorem RemoveItem_int_live (s : CShellBrowser) (id : Int) (info : ItemInfo_t)
    (h1 : id ≠ -1) (h2 : map_at s.m_itemInfoMap id = .ok info) :
    ∃ t, RemoveItem_int s id = .ok t ∧
      t.m_itemInfoMap = map_erase s.m_itemInfoMap id ∧
      t.m_ulTotalDirSize = sub64 s.m_ulTotalDirSize (fileSize info) ∧
      t.m_ulFileSelectionSize = s.m_ulFileSelectionSize ∧
      t.m_nTotalItems = s.m_nTotalItems - 1 ∧
      t.m_hListView =
        (if ListView_FindItem s.m_hListView id ≠ -1 then
          ListView_DeleteItem s.m_hListView (ListView_FindItem s.m_hListView id)
         else s.m_hListView) ∧
      t.m_bApplyFilter = s.m_bApplyFilter ∧ t.m_ID = s.m_ID ∧
      t.trace =
        (if ListView_GetItemCount t.m_hListView = 0 ∧ s.m_bApplyFilter = false then
          s.trace ++ [Effect.FolderEmptyBackgroundImage true]
         else s.trace) := by
  by_cases hfi : ListView_FindItem s.m_hListView id = -1
  · simp only [RemoveItem_int, h1, h2, hfi, if_false, ne_eq, not_true_eq_false]
    split
    · rename_i hc
      refine ⟨_, rfl, ?_⟩
      simp only [ApplyFolderEmptyBackgroundImage, fileSize] at hc ⊢
      simp [hc]
    · rename_i hc
      refine ⟨_, rfl, ?_⟩
      simp only [fileSize] at hc ⊢
      simp [hc]
  · simp only [RemoveItem_int, h1, h2, hfi, if_false, ne_eq, not_false_eq_true, if_true]
    split
    · rename_i hc
      refine ⟨_, rfl, ?_⟩
      simp only [ApplyFolderEmptyBackgroundImage, fileSize] at hc ⊢
      simp [hc]
    · rename_i hc
      refine ⟨_, rfl, ?_⟩
      simp only [fileSize] at hc ⊢
      simp [hc]

theorem RemoveItem_int_quiet (s : CShellBrowser) (id : Int) (info : ItemInfo_t)
    (h1 : id ≠ -1) (h2 : map_at s.m_itemInfoMap id = .ok info) :
    ∃ t, RemoveItem_int s id = .ok t ∧ QuietStep s t := by
  obtain ⟨t, ht, _, _, _, _, _, _, hid, htr⟩ := RemoveItem_int_live s id info h1 h2
  refine ⟨t, ht, hid, ?_⟩
  split at htr
  · exact ⟨_, htr, by simp⟩
  · exact ⟨[], by simp [htr], by simp⟩

theorem RemoveItem_quiet (s : CShellBrowser) (pidl : PIDL) :
    ∃ t, RemoveItem s pidl = .ok t ∧ QuietStep s t := by
  unfold RemoveItem
  by_cases h : LocateFileItemInternalIndex s pidl = -1
  · exact ⟨s, by simp [h], QuietStep.rfl_of s s rfl rfl⟩
  · obtain ⟨info, hinfo⟩ := locate_live s pidl h
    simpa [h] using RemoveItem_int_quiet s _ info h hinfo

theorem queueCheckedColumns_quiet (cols : List Column_t) (s : CShellBrowser) (id : Int) :
    QuietStep s (queueCheckedColumns s id cols) ∧
      (queueCheckedColumns s id cols).m_itemInfoMap = s.m_itemInfoMap ∧
      (queueCheckedColumns s id cols).m_ulTotalDirSize = s.m_ulTotalDirSize ∧
      (queueCheckedColumns s id cols).m_ulFileSelectionSize = s.m_ulFileSelectionSize := by
  induction cols generalizing s with
  | nil => exact ⟨QuietStep.rfl_of s s rfl rfl, rfl, rfl, rfl⟩
  | cons c tl ih =>
    unfold queueCheckedColumns
    simp only [List.foldl_cons]
    by_cases hc : c.bChecked = true
    · simp only [hc, if_true]
      have h := ih (QueueColumnTask s id c.id)
      unfold queueCheckedColumns at h
      refine ⟨QuietStep.trans_of ?_ h.1, h.2.1, h.2.2.1, h.2.2.2⟩
      exact ⟨rfl, [Effect.ColumnTask id c.id], rfl, by simp⟩
    · simp only [hc]
      have h := ih s
      unfold queueCheckedColumns at h
      simpa using h

theorem ListView_IsSelected_update (f : LVITEM → LVITEM) (hf : ∀ x, (f x).selected = x.selected)
    (lv : List LVITEM) (i j : Int) :
    ListView_IsSelected (ListView_update lv i f) j = ListView_IsSelected lv j := by
  have key : ∀ (l : List LVITEM) (n m : Nat),
      ((l.modify f n)[m]?).map (fun x => x.selected) = (l[m]?).map (fun x => x.selected) := by
    intro l
    induction l with
    | nil => intro n m; simp
    | cons a tl ih =>
      intro n m
      cases n with
      | zero => cases m <;> simp [hf]
      | succ n => cases m <;> simp [ih]
  unfold ListView_IsSelected ListView_update
  by_cases hj : j < 0
  · simp [hj]
  · by_cases hi : i < 0
    · simp [hi]
    · simp only [hj, hi, if_false]
      have h := key lv i.toNat j.toNat
      cases h1 : (lv.modify f i.toNat)[j.toNat]? <;> cases h2 : lv[j.toNat]? <;>
        simp [h1, h2] at h ⊢
      exact h

theorem ModifyItem_overlay_frame (env : Shell) (s : CShellBrowser) (pidl : PIDL) (iItem : Int) :
    (ModifyItem_overlay env s pidl iItem).m_itemInfoMap = s.m_itemInfoMap ∧
    (ModifyItem_overlay env s pidl iItem).m_ulTotalDirSize = s.m_ulTotalDirSize ∧
    (ModifyItem_overlay env s pidl iItem).m_ulFileSelectionSize = s.m_ulFileSelectionSize ∧
    (ModifyItem_overlay env s pidl iItem).m_ID = s.m_ID ∧
    (ModifyItem_overlay env s pidl iItem).trace = s.trace ∧
    (∀ j, ListView_IsSelected (ModifyItem_overlay env s pidl iItem).m_hListView j =
      ListView_IsSelected s.m_hListView j) := by
  unfold ModifyItem_overlay
  cases env.SHGetFileInfo pidl with
  | none => simp
  | some iIcon =>
    refine ⟨rfl, rfl, rfl, rfl, rfl, ?_⟩
    intro j
    exact ListView_IsSelected_update
      (fun it => { it with overlay := INDEXTOOVERLAYMASK (iIcon >>> 24) }) (fun _ => rfl)
      s.m_hListView iItem j

theorem ModifyItem_found_quiet (s : CShellBrowser) (id iItem : Int) (wfd : WIN32_FIND_DATA) :
    QuietStep s (ModifyItem_found s id iItem wfd) := by
  unfold ModifyItem_found
  simp only []
  split
  · split
    · rename_i cols _
      exact QuietStep.trans_of (QuietStep.rfl_of _ _ rfl rfl) (queueCheckedColumns_quiet cols _ _).1
    · exact QuietStep.rfl_of _ _ rfl rfl
  · exact QuietStep.rfl_of _ _ rfl rfl

theorem ModifyItem_quiet (env : Shell) (s : CShellBrowser) (pidl : PIDL) :
    ∃ t, ModifyItem env s pidl = .ok t ∧ QuietStep s t := by
  unfold ModifyItem
  by_cases h : LocateFileItemInternalIndex s pidl = -1
  · exact ⟨s, by simp [h], QuietStep.rfl_of s s rfl rfl⟩
  · obtain ⟨info, hinfo⟩ := locate_live s pidl h
    by_cases hi : ListView_FindItem s.m_hListView (LocateFileItemInternalIndex s pidl) = -1
    · exact ⟨s, by simp [h, hi], QuietStep.rfl_of s s rfl rfl⟩
    · simp only [h, hi, if_false]
      obtain ⟨hm, _, _, hid, htr, _⟩ := ModifyItem_overlay_frame env s pidl
        (ListView_FindItem s.m_hListView (LocateFileItemInternalIndex s pidl))
      have hq : QuietStep s (ModifyItem_overlay env s pidl
        (ListView_FindItem s.m_hListView (LocateFileItemInternalIndex s pidl))) :=
        QuietStep.rfl_of _ _ hid htr
      rw [hm, hinfo]
      simp only []
      cases env.FindFirstFile ((env.GetDisplayName pidl SHGDN_FORPARSING).getD "") with
      | none =>
        exact ⟨_, rfl, QuietStep.trans_of hq (QuietStep.rfl_of _ _ rfl rfl)⟩
      | some wfd =>
        exact ⟨_, rfl, QuietStep.trans_of hq (QuietStep.trans_of (QuietStep.rfl_of _ _ rfl rfl)
          (ModifyItem_found_quiet _ _ _ wfd))⟩

theorem RenameItem_row_quiet (env : Shell) (s : CShellBrowser) (id iItem : Int) (iIcon : Nat)
    (info : ItemInfo_t) (h : map_at s.m_itemInfoMap id = .ok info) :
    ∃ t, RenameItem_row env s id iItem iIcon = .ok t ∧ QuietStep s t := by
  unfold RenameItem_row ProcessItemFileName IsFileFiltered
  simp only [h]
  split
  · exact ⟨_, rfl, QuietStep.rfl_of _ _ rfl rfl⟩
  · exact ⟨_, rfl, QuietStep.rfl_of _ _ rfl rfl⟩

theorem RenameItem_quiet (env : Shell) (s : CShellBrowser) (pidlOld pidlNew : PIDL) :
    ∃ t, RenameItem env s pidlOld pidlNew = .ok t ∧ QuietStep s t := by
  unfold RenameItem
  by_cases h : LocateFileItemInternalIndex s pidlOld = -1
  · exact ⟨s, by simp [h], QuietStep.rfl_of s s rfl rfl⟩
  · obtain ⟨info, hinfo⟩ := locate_live s pidlOld h
    simp only [h, if_false, hinfo]
    cases env.SHBindToParent pidlNew with
    | none => exact ⟨s, rfl, QuietStep.rfl_of s s rfl rfl⟩
    | some rel =>
      simp only []
      cases env.GetDisplayName pidlNew (SHGDN_INFOLDER ||| SHGDN_FORPARSING) with
      | none => exact ⟨s, rfl, QuietStep.rfl_of s s rfl rfl⟩
      | some name =>
        simp only []
        cases env.SHGetFileInfo pidlNew with
        | none => exact ⟨_, rfl, QuietStep.rfl_of _ _ rfl rfl⟩
        | some iIcon =>
          simp only []
          split
          · have hrec : map_at (RenameItem_record s (LocateFileItemInternalIndex s pidlOld)
                pidlNew rel name).m_itemInfoMap (LocateFileItemInternalIndex s pidlOld) =
                .ok ((fun r : ItemInfo_t => { r with
                  pidlComplete := pidlNew, pridl := rel, szDisplayName := name,
                  wfd := { r.wfd with cFileName := name } }) info) := by
              simp [RenameItem_record, map_at_modify, hinfo, Except.map]
            obtain ⟨t, ht, hq⟩ := RenameItem_row_quiet env _ _ _ iIcon _ hrec
            exact ⟨t, ht, QuietStep.trans_of (QuietStep.rfl_of _ _ rfl rfl) hq⟩
          · exact ⟨_, rfl, QuietStep.rfl_of _ _ rfl rfl⟩

/-- The switch of `OnShellNotify` never throws, keeps `m_ID` and sends no
message to the owner. -/
theorem OnShellNotify_switch_quiet (env : Shell) (s : CShellBrowser) (n : Notification) :
    ∃ t, OnShellNotify_switch env s n = .ok t ∧ QuietStep s t := by
  have hadd : ∀ pidl, QuietStep s (AddItem env s pidl) := fun pidl =>
    QuietStep.rfl_of _ _ (AddItem_frame env s pidl).1 (AddItem_frame env s pidl).2
  unfold OnShellNotify_switch
  split
  · split
    · exact ⟨_, rfl, hadd _⟩
    · exact ⟨s, rfl, QuietStep.rfl_of s s rfl rfl⟩
  · split
    · split
      · exact RenameItem_quiet env s _ _
      · split
        · exact RemoveItem_quiet s _
        · split
          · exact ⟨_, rfl, hadd _⟩
          · exact ⟨s, rfl, QuietStep.rfl_of s s rfl rfl⟩
    · split
      · split
        · exact ModifyItem_quiet env s _
        · exact ⟨s, rfl, QuietStep.rfl_of s s rfl rfl⟩
      · split
        · split
          · exact RemoveItem_quiet s _
          · exact ⟨s, rfl, QuietStep.rfl_of s s rfl rfl⟩
        · exact ⟨s, rfl, QuietStep.rfl_of s s rfl rfl⟩

/-! ## The dispatch of `OnShellNotify` -/

/-- C1: for a rename notification (rename-item or rename-folder) `OnShellNotify`
runs, before its message to the owner, exactly one of: `RenameItem(old, new)`
when both paths are children of the watched directory, `RemoveItem(old)` when
only the old path is, `AddItem(new)` when only the new path is, and nothing when
neither is. -/
theorem C1_rename_dispatch (env : Shell) (s : CShellBrowser) (n : Notification)
    (h : n.event = SHCNE_RENAMEFOLDER ∨ n.event = SHCNE_RENAMEITEM) :
    (ILIsParent s.m_pidlDirectory n.pidl0 true = true →
      ILIsParent s.m_pidlDirectory n.pidl1 true = true →
      OnShellNotify env s n =
        (RenameItem env s n.pidl0 n.pidl1).map SendMessage_DIRECTORYMODIFIED) ∧
    (ILIsParent s.m_pidlDirectory n.pidl0 true = true →
      ILIsParent s.m_pidlDirectory n.pidl1 true = false →
      OnShellNotify env s n = (RemoveItem s n.pidl0).map SendMessage_DIRECTORYMODIFIED) ∧
    (ILIsParent s.m_pidlDirectory n.pidl0 true = false →
      ILIsParent s.m_pidlDirectory n.pidl1 true = true →
      OnShellNotify env s n = .ok (SendMessage_DIRECTORYMODIFIED (AddItem env s n.pidl1))) ∧
    (ILIsParent s.m_pidlDirectory n.pidl0 true = false →
      ILIsParent s.m_pidlDirectory n.pidl1 true = false →
      OnShellNotify env s n = .ok (SendMessage_DIRECTORYMODIFIED s)) := by
  have hne : ¬ (n.event = SHCNE_MKDIR ∨ n.event = SHCNE_CREATE) := by
    rcases h with h | h <;> rw [h] <;> decide
  refine ⟨?_, ?_, ?_, ?_⟩ <;> intro h0 h1 <;>
    simp only [OnShellNotify, OnShellNotify_switch, hne, h, h0, h1, if_true, if_false,
      Bool.and_self, Bool.and_false, Bool.false_and, Bool.false_eq_true] <;>
    first
      | rfl
      | (cases RenameItem env s n.pidl0 n.pidl1 <;> rfl)
      | (cases RemoveItem s n.pidl0 <;> rfl)

/-- C1 at the rename of `b.txt` out of the watched directory: it is handled as
`RemoveItem` of the old path only. -/
theorem C1_rename_dispatch_witness :
    OnShellNotify shell0 session0 renameOut =
      (RemoveItem session0 renameOut.pidl0).map SendMessage_DIRECTORYMODIFIED :=
  (C1_rename_dispatch shell0 session0 renameOut (Or.inr rfl)).2.1 (by decide) (by decide)

/-- C2: a rename notification whose new path is a child of the watched directory
and whose old path is not gives the same result (state and trace) as a create
notification for the new path. -/
theorem C2_degradation_equivalence (env : Shell) (s : CShellBrowser) (n c : Notification)
    (hn : n.event = SHCNE_RENAMEFOLDER ∨ n.event = SHCNE_RENAMEITEM)
    (hc : c.event = SHCNE_CREATE ∨ c.event = SHCNE_MKDIR)
    (hp : c.pidl0 = n.pidl1)
    (hnew : ILIsParent s.m_pidlDirectory n.pidl1 true = true)
    (hold : ILIsParent s.m_pidlDirectory n.pidl0 true = false) :
    OnShellNotify env s n = OnShellNotify env s c := by
  have hne : ¬ (n.event = SHCNE_MKDIR ∨ n.event = SHCNE_CREATE) := by
    rcases hn with h | h <;> rw [h] <;> decide
  have hc1 : c.event = SHCNE_MKDIR ∨ c.event = SHCNE_CREATE := hc.symm
  simp only [OnShellNotify, OnShellNotify_switch, hne, hn, hc1, hp, hnew, hold, if_true, if_false,
    Bool.false_and, Bool.false_eq_true]

/-- C2 at the rename of `C:\Other\new.txt` to `d.txt` in the watched directory. -/
theorem C2_degradation_equivalence_witness :
    OnShellNotify shell0 session0 renameIn = OnShellNotify shell0 session0 createD :=
  C2_degradation_equivalence shell0 session0 renameIn createD (Or.inl rfl) (Or.inl rfl) rfl
    (by decide) (by decide)

/-- C3: a create, mkdir, update-item, delete or rmdir notification whose path is
not a child of the watched directory is discarded: `OnShellNotify` returns with
the item store, the item count, both size counters and the list view as they
were. -/
theorem C3_non_child_discarded (env : Shell) (s : CShellBrowser) (n : Notification)
    (he : n.event = SHCNE_CREATE ∨ n.event = SHCNE_MKDIR ∨ n.event = SHCNE_UPDATEITEM ∨
      n.event = SHCNE_DELETE ∨ n.event = SHCNE_RMDIR)
    (h : ILIsParent s.m_pidlDirectory n.pidl0 true = false) :
    ∃ t, OnShellNotify env s n = .ok t ∧
      t.m_itemInfoMap = s.m_itemInfoMap ∧ t.m_nTotalItems = s.m_nTotalItems ∧
      t.m_ulTotalDirSize = s.m_ulTotalDirSize ∧
      t.m_ulFileSelectionSize = s.m_ulFileSelectionSize ∧
      t.m_hListView = s.m_hListView := by
  refine ⟨SendMessage_DIRECTORYMODIFIED s, ?_, rfl, rfl, rfl, rfl, rfl⟩
  rcases he with he | he | he | he | he <;>
    simp [OnShellNotify, OnShellNotify_switch, he, h, SHCNE_CREATE, SHCNE_MKDIR,
      SHCNE_UPDATEITEM, SHCNE_DELETE, SHCNE_RMDIR, SHCNE_RENAMEFOLDER, SHCNE_RENAMEITEM]

/-- C3 at a delete notification for a file of another directory. -/
theorem C3_non_child_discarded_witness :
    ∃ t, OnShellNotify shell0 session0 deleteElsewhere = .ok t ∧
      t.m_itemInfoMap = session0.m_itemInfoMap ∧ t.m_nTotalItems = session0.m_nTotalItems ∧
      t.m_ulTotalDirSize = session0.m_ulTotalDirSize ∧
      t.m_ulFileSelectionSize = session0.m_ulFileSelectionSize ∧
      t.m_hListView = session0.m_hListView :=
  C3_non_child_discarded shell0 session0 deleteElsewhere (Or.inr (Or.inr (Or.inr (Or.inl rfl))))
    (by decide)

/-- C4: every notification, whatever its event kind, makes `OnShellNotify` return
normally with exactly one new message `WM_USER_DIRECTORYMODIFIED` in the trace,
and that message comes after everything the switch (the item operations of the
event) put there. -/
theorem C4_signal_once_after (env : Shell) (s : CShellBrowser) (n : Notification) :
    ∃ mid t ops,
      OnShellNotify_switch env s n = .ok mid ∧
      OnShellNotify env s n = .ok t ∧
      t = { mid with trace := mid.trace ++ [Effect.DirectoryModified s.m_ID] } ∧
      mid.trace = s.trace ++ ops ∧
      t.trace = s.trace ++ ops ++ [Effect.DirectoryModified s.m_ID] ∧
      signalCount ops = 0 ∧
      signalCount t.trace = signalCount s.trace + 1 := by
  obtain ⟨mid, hmid, hid, ops, hops, hfree⟩ := OnShellNotify_switch_quiet env s n
  have hz : signalCount ops = 0 := by
    unfold signalCount
    rw [List.countP_eq_zero]
    intro e he
    cases e with
    | DirectoryModified id => exact absurd rfl (hfree _ he id)
    | FolderEmptyBackgroundImage b => simp
    | ColumnTask a b => simp
  refine ⟨mid, SendMessage_DIRECTORYMODIFIED mid, ops, hmid, ?_, ?_, hops, ?_, hz, ?_⟩
  · simp [OnShellNotify, hmid]
  · simp [SendMessage_DIRECTORYMODIFIED, hid]
  · simp [SendMessage_DIRECTORYMODIFIED, hid, hops]
  · have : (SendMessage_DIRECTORYMODIFIED mid).trace =
        s.trace ++ ops ++ [Effect.DirectoryModified s.m_ID] := by
      simp [SendMessage_DIRECTORYMODIFIED, hid, hops]
    rw [this]
    unfold signalCount at hz ⊢
    simp [List.countP_append, hz]

/-! ## The size counters -/

theorem map_erase_sum (m : List (Int × ItemInfo_t)) (id : Int) (info : ItemInfo_t)
    (h : map_at m id = .ok info) :
    ((map_erase m id).map (fun kv => fileSize kv.2)).sum + fileSize info =
      (m.map (fun kv => fileSize kv.2)).sum := by
  induction m with
  | nil => simp [map_at] at h
  | cons hd tl ih =>
    obtain ⟨k, v⟩ := hd
    by_cases hk : k = id
    · simp only [map_at, hk, if_true, Except.ok.injEq] at h
      subst h
      simp [map_erase, hk, Nat.add_comm]
    · simp only [map_at, hk, if_false] at h
      have := ih h
      simp only [map_erase, hk, if_false, List.map_cons, List.sum_cons]
      omega

theorem map_modify_sum (m : List (Int × ItemInfo_t)) (id : Int) (info : ItemInfo_t)
    (f : ItemInfo_t → ItemInfo_t) (h : map_at m id = .ok info) :
    ((map_modify m id f).map (fun kv => fileSize kv.2)).sum + fileSize info =
      (m.map (fun kv => fileSize kv.2)).sum + fileSize (f info) := by
  induction m with
  | nil => simp [map_at] at h
  | cons hd tl ih =>
    obtain ⟨k, v⟩ := hd
    by_cases hk : k = id
    · simp only [map_at, hk, if_true, Except.ok.injEq] at h
      subst h
      simp only [map_modify, hk, if_true, List.map_cons, List.sum_cons]
      omega
    · simp only [map_at, hk, if_false] at h
      have := ih h
      simp only [map_modify, hk, if_false, List.map_cons, List.sum_cons]
      omega

theorem fileSize_lt (info : ItemInfo_t) : fileSize info < 18446744073709551616 := by
  unfold fileSize QuadPart
  omega

/-- The method `RemoveItem(int)` on a live item keeps `m_ulTotalDirSize` equal to the sum of
the file sizes of the records. -/
theorem RemoveItem_int_preserves_sum (s : CShellBrowser) (id : Int) (info : ItemInfo_t)
    (h1 : id ≠ -1) (h2 : map_at s.m_itemInfoMap id = .ok info)
    (hinv : s.m_ulTotalDirSize = sumFileSize s.m_itemInfoMap) :
    ∃ t, RemoveItem_int s id = .ok t ∧ t.m_ulTotalDirSize = sumFileSize t.m_itemInfoMap := by
  obtain ⟨t, ht, hm, htot, _⟩ := RemoveItem_int_live s id info h1 h2
  refine ⟨t, ht, ?_⟩
  rw [htot, hm, hinv]
  have hs := map_erase_sum s.m_itemInfoMap id info h2
  have hlt := fileSize_lt info
  unfold sumFileSize sub64
  omega

/-- The method `ModifyItem` keeps `m_ulTotalDirSize` equal to the sum of the file sizes of
the records when the re-read of the file succeeds, and also when the item is not
in the store or not displayed. -/
theorem ModifyItem_preserves_sum_of_reread (env : Shell) (s : CShellBrowser) (pidl : PIDL)
    (hinv : s.m_ulTotalDirSize = sumFileSize s.m_itemInfoMap)
    (hre : LocateFileItemInternalIndex s pidl ≠ -1 →
      ListView_FindItem s.m_hListView (LocateFileItemInternalIndex s pidl) ≠ -1 →
      env.FindFirstFile ((env.GetDisplayName pidl SHGDN_FORPARSING).getD "") ≠ none) :
    ∃ t, ModifyItem env s pidl = .ok t ∧ t.m_ulTotalDirSize = sumFileSize t.m_itemInfoMap := by
  unfold ModifyItem
  by_cases h : LocateFileItemInternalIndex s pidl = -1
  · exact ⟨s, by simp [h], hinv⟩
  · obtain ⟨info, hinfo⟩ := locate_live s pidl h
    by_cases hi : ListView_FindItem s.m_hListView (LocateFileItemInternalIndex s pidl) = -1
    · exact ⟨s, by simp [h, hi], hinv⟩
    · simp only [h, hi, if_false]
      obtain ⟨hm, htot, _, _, _, _⟩ := ModifyItem_overlay_frame env s pidl
        (ListView_FindItem s.m_hListView (LocateFileItemInternalIndex s pidl))
      rw [hm, hinfo]
      simp only []
      have hre1 := hre h hi
      cases hf : env.FindFirstFile ((env.GetDisplayName pidl SHGDN_FORPARSING).getD "") with
      | none => exact absurd hf hre1
      | some wfd =>
        refine ⟨_, rfl, ?_⟩
        have hs := map_modify_sum s.m_itemInfoMap (LocateFileItemInternalIndex s pidl) info
          (fun r => { r with wfd := wfd }) hinfo
        have hlt := fileSize_lt info
        have hsum : (ModifyItem_found (ModifyItem_subtract (ModifyItem_overlay env s pidl
            (ListView_FindItem s.m_hListView (LocateFileItemInternalIndex s pidl)))
            (ListView_FindItem s.m_hListView (LocateFileItemInternalIndex s pidl))
            (QuadPart info.wfd.nFileSizeLow info.wfd.nFileSizeHigh))
            (LocateFileItemInternalIndex s pidl)
            (ListView_FindItem s.m_hListView (LocateFileItemInternalIndex s pidl)) wfd).m_ulTotalDirSize
            = add64 (sub64 s.m_ulTotalDirSize (fileSize info)) (QuadPart wfd.nFileSizeLow wfd.nFileSizeHigh) := by
          unfold ModifyItem_found
          simp only []
          split
          · split
            · rw [(queueCheckedColumns_quiet _ _ _).2.2.1]
              simp [ModifyItem_subtract, htot, fileSize]
            · simp [ModifyItem_subtract, htot, fileSize]
          · simp [ModifyItem_subtract, htot, fileSize]
        have hmap : (ModifyItem_found (ModifyItem_subtract (ModifyItem_overlay env s pidl
            (ListView_FindItem s.m_hListView (LocateFileItemInternalIndex s pidl)))
            (ListView_FindItem s.m_hListView (LocateFileItemInternalIndex s pidl))
            (QuadPart info.wfd.nFileSizeLow info.wfd.nFileSizeHigh))
            (LocateFileItemInternalIndex s pidl)
            (ListView_FindItem s.m_hListView (LocateFileItemInternalIndex s pidl)) wfd).m_itemInfoMap
            = map_modify s.m_itemInfoMap (LocateFileItemInternalIndex s pidl)
                (fun r => { r with wfd := wfd }) := by
          unfold ModifyItem_found
          simp only []
          split
          · split
            · rw [(queueCheckedColumns_quiet _ _ _).2.1]
              simp [ModifyItem_subtract, hm]
            · simp [ModifyItem_subtract, hm]
          · simp [ModifyItem_subtract, hm]
        rw [hsum, hmap, hinv]
        have e1 : fileSize ((fun r : ItemInfo_t => { r with wfd := wfd }) info) =
            QuadPart wfd.nFileSizeLow wfd.nFileSizeHigh := rfl
        rw [e1] at hs
        unfold sumFileSize add64 sub64
        omega

/-- The scenario of the specification: with `a.txt` (10), `b.txt` (20) and
`c.txt` (5) and total 35, removing `b.txt` leaves two records and total 15. -/
theorem scenario_remove_b :
    session0.m_ulTotalDirSize = sumFileSize session0.m_itemInfoMap ∧
    ∃ t, RemoveItem session0 pidlB = .ok t ∧ t.m_itemInfoMap.length = 2 ∧
      t.m_nTotalItems = 2 ∧ t.m_ulTotalDirSize = 15 ∧
      t.m_ulTotalDirSize = sumFileSize t.m_itemInfoMap :=
  ⟨by decide, _, rfl, by decide, by decide, by decide, by decide⟩

/-- C5: the code at the failing input. In `session0` the total directory size is
the sum of the file sizes of the records (35). `ModifyItem` for the displayed
`c.txt` (5 bytes), whose re-read fails, takes 5 away from the total and leaves
the record in the store: afterwards the total is 30 and the sum is still 35. -/
theorem C5_sum_broken_by_failed_reread :
    session0.m_ulTotalDirSize = sumFileSize session0.m_itemInfoMap ∧
    shell0.FindFirstFile ((shell0.GetDisplayName pidlC SHGDN_FORPARSING).getD "") = none ∧
    ∃ t, ModifyItem shell0 session0 pidlC = .ok t ∧
      t.m_itemInfoMap = session0.m_itemInfoMap ∧
      t.m_ulTotalDirSize = 30 ∧ sumFileSize t.m_itemInfoMap = 35 :=
  ⟨by decide, by decide, _, rfl, by decide, by decide, by decide⟩

/-- What `ModifyItem` does to a displayed item whose re-read fails: the record
stays, and its file size is taken away from the total directory size and, when
the row is selected, from the selection size. -/
theorem ModifyItem_reread_fails (env : Shell) (s : CShellBrowser) (pidl : PIDL)
    (h : LocateFileItemInternalIndex s pidl ≠ -1)
    (hi : ListView_FindItem s.m_hListView (LocateFileItemInternalIndex s pidl) ≠ -1)
    (hf : env.FindFirstFile ((env.GetDisplayName pidl SHGDN_FORPARSING).getD "") = none) :
    ∃ t info, ModifyItem env s pidl = .ok t ∧
      map_at s.m_itemInfoMap (LocateFileItemInternalIndex s pidl) = .ok info ∧
      t.m_itemInfoMap = s.m_itemInfoMap ∧
      t.m_ulTotalDirSize = sub64 s.m_ulTotalDirSize (fileSize info) ∧
      t.m_ulFileSelectionSize =
        (if ListView_IsSelected s.m_hListView
            (ListView_FindItem s.m_hListView (LocateFileItemInternalIndex s pidl)) then
          sub64 s.m_ulFileSelectionSize (fileSize info)
         else s.m_ulFileSelectionSize) := by
  obtain ⟨info, hinfo⟩ := locate_live s pidl h
  obtain ⟨hm, htot, hsel, _, _, hlv⟩ := ModifyItem_overlay_frame env s pidl
    (ListView_FindItem s.m_hListView (LocateFileItemInternalIndex s pidl))
  refine ⟨ModifyItem_subtract (ModifyItem_overlay env s pidl
      (ListView_FindItem s.m_hListView (LocateFileItemInternalIndex s pidl)))
      (ListView_FindItem s.m_hListView (LocateFileItemInternalIndex s pidl))
      (QuadPart info.wfd.nFileSizeLow info.wfd.nFileSizeHigh), info, ?_, hinfo, ?_⟩
  · unfold ModifyItem
    simp only [h, hi, if_false, hm, hinfo, hf]
  · simp [ModifyItem_subtract, hm, htot, hsel, hlv, fileSize]

/-- C6: the code at the failing input. `ModifyItem` for the displayed and selected
`b.txt` (20 bytes), whose re-read fails, leaves the records as they were but
changes both counters: the total directory size goes from 35 to 15 and the
selection size from 20 to 0. -/
theorem C6_failed_reread_changes_counters :
    shell0.FindFirstFile ((shell0.GetDisplayName pidlB SHGDN_FORPARSING).getD "") = none ∧
    session0.m_ulTotalDirSize = 35 ∧ session0.m_ulFileSelectionSize = 20 ∧
    ∃ t, ModifyItem shell0 session0 pidlB = .ok t ∧
      t.m_itemInfoMap = session0.m_itemInfoMap ∧
      t.m_ulTotalDirSize = 15 ∧ t.m_ulFileSelectionSize = 0 :=
  ⟨by decide, by decide, by decide, _, rfl, by decide, by decide, by decide⟩

/-- C7: the code at the failing input. `b.txt` (20 bytes, internal id 1) is
selected in `session0` and the selection size is 20. `RemoveItem(1)` takes 20
away from the total directory size (35 to 15) and leaves the selection size at
20. -/
theorem C7_selection_size_kept_on_remove :
    map_at session0.m_itemInfoMap 1 = .ok (mkInfo pidlB "b.txt" 20) ∧
    ListView_IsSelected session0.m_hListView (ListView_FindItem session0.m_hListView 1) = true ∧
    session0.m_ulTotalDirSize = 35 ∧ session0.m_ulFileSelectionSize = 20 ∧
    ∃ t, RemoveItem_int session0 1 = .ok t ∧
      t.m_ulTotalDirSize = 15 ∧ t.m_ulFileSelectionSize = 20 :=
  ⟨rfl, by decide, by decide, by decide, _, rfl, by decide, by decide⟩

/-- C8, as stated, fails: the identifier 9 is not in the store of `session0` and
is not the sentinel, and `RemoveItem(9)` does not return: `at` throws
`out_of_range`. -/
theorem C8_absent_id_throws :
    map_at session0.m_itemInfoMap 9 = .error Exception.out_of_range ∧
    RemoveItem_int session0 9 = .error Exception.out_of_range ∧
    ¬ ∃ t, RemoveItem_int session0 9 = .ok t := by
  refine ⟨rfl, rfl, ?_⟩
  rintro ⟨t, ht⟩
  have h : RemoveItem_int session0 9 = .error Exception.out_of_range := rfl
  rw [h] at ht
  cases ht

/-- C8, amended: `RemoveItem(-1)` returns with the state as it was; for any other
identifier that is not in the store `RemoveItem(int)` throws `out_of_range`
(nothing is returned); and `RemoveItem(path)` for a path that the lookup does
not find returns with the state as it was. -/
theorem C8_remove_absent (s : CShellBrowser) :
    RemoveItem_int s (-1) = .ok s ∧
    (∀ id, id ≠ -1 → (∀ info, map_at s.m_itemInfoMap id ≠ .ok info) →
      RemoveItem_int s id = .error Exception.out_of_range) ∧
    (∀ pidl, LocateFileItemInternalIndex s pidl = -1 → RemoveItem s pidl = .ok s) := by
  refine ⟨by simp [RemoveItem_int], ?_, ?_⟩
  · intro id hid habs
    unfold RemoveItem_int
    simp only [hid, if_false]
    cases hm : map_at s.m_itemInfoMap id with
    | error e => cases e; rfl
    | ok info => exact absurd hm (habs info)
  · intro pidl h
    simp [RemoveItem, h]

/-- C8, amended, at `session0`: the absent identifier 9 throws, and the path of
`d.txt`, which the lookup does not find, changes nothing. -/
theorem C8_remove_absent_witness :
    RemoveItem_int session0 9 = .error Exception.out_of_range ∧
    RemoveItem session0 pidlD = .ok session0 :=
  ⟨(C8_remove_absent session0).2.1 9 (by decide) (by intro info h; cases h),
   (C8_remove_absent session0).2.2 pidlD (by decide)⟩

/-- C10: `RemoveItem(int)` on a live item calls
`ApplyFolderEmptyBackgroundImage(true)` exactly when, after the removal, the list
view has no rows and no filter is applied; with a filter applied, or with a row
left, the trace of the call is as it was. -/
theorem C10_empty_folder_indicator (s : CShellBrowser) (id : Int) (info : ItemInfo_t)
    (h1 : id ≠ -1) (h2 : map_at s.m_itemInfoMap id = .ok info) :
    ∃ t, RemoveItem_int s id = .ok t ∧
      (ListView_GetItemCount t.m_hListView = 0 ∧ s.m_bApplyFilter = false →
        t.trace = s.trace ++ [Effect.FolderEmptyBackgroundImage true]) ∧
      (s.m_bApplyFilter = true ∨ ListView_GetItemCount t.m_hListView ≠ 0 →
        t.trace = s.trace) := by
  obtain ⟨t, ht, _, _, _, _, _, _, _, htr⟩ := RemoveItem_int_live s id info h1 h2
  refine ⟨t, ht, ?_, ?_⟩
  · intro hc
    rw [htr, if_pos hc]
  · intro hc
    rw [htr, if_neg]
    rintro ⟨hz, hf⟩
    rcases hc with hc | hc
    · rw [hf] at hc; cases hc
    · exact hc hz

/-- C10 at two removals: removing the only file of `session1` empties the view and
updates the indicator; removing `b.txt` from `session0` leaves two rows and
does not. -/
theorem C10_empty_folder_indicator_witness :
    (∃ t, RemoveItem_int session1 0 = .ok t ∧
      (ListView_GetItemCount t.m_hListView = 0 ∧ session1.m_bApplyFilter = false →
        t.trace = session1.trace ++ [Effect.FolderEmptyBackgroundImage true]) ∧
      (session1.m_bApplyFilter = true ∨ ListView_GetItemCount t.m_hListView ≠ 0 →
        t.trace = session1.trace)) ∧
    (∃ t, RemoveItem_int session0 1 = .ok t ∧
      (ListView_GetItemCount t.m_hListView = 0 ∧ session0.m_bApplyFilter = false →
        t.trace = session0.trace ++ [Effect.FolderEmptyBackgroundImage true]) ∧
      (session0.m_bApplyFilter = true ∨ ListView_GetItemCount t.m_hListView ≠ 0 →
        t.trace = session0.trace)) :=
  ⟨C10_empty_folder_indicator session1 0 (mkInfo pidlA "a.txt" 10) (by decide) rfl,
   C10_empty_folder_indicator session0 1 (mkInfo pidlB "b.txt" 20) (by decide) rfl⟩

/-! ## Dropped files -/

theorem isDropped_eq_true_iff (l : List DroppedFile_t) (name : String) :
    isDropped l name = true ↔ ∃ d ∈ l, d.szFileName = name := by
  induction l with
  | nil => simp [isDropped]
  | cons d tl ih =>
    unfold isDropped
    by_cases h : name = d.szFileName
    · simp [h]
    · have h1 : ¬ d.szFileName = name := fun e => h e.symm
      simp [h, h1, ih]

theorem le_foldl_max (l : List Int) (init : Int) :
    init ≤ l.foldl max init ∧ ∀ k ∈ l, k ≤ l.foldl max init := by
  induction l generalizing init with
  | nil => simp
  | cons a tl ih =>
    simp only [List.foldl_cons, List.mem_cons]
    have h := ih (max init a)
    refine ⟨le_trans (le_max_left _ _) h.1, ?_⟩
    intro k hk
    rcases hk with hk | hk
    · rw [hk]; exact le_trans (le_max_right _ _) h.1
    · exact h.2 k hk

theorem map_at_absent_of_keys (m : List (Int × ItemInfo_t)) (k : Int)
    (h : k ∉ m.map (fun kv => kv.1)) : map_at m k = .error Exception.out_of_range := by
  induction m with
  | nil => rfl
  | cons hd tl ih =>
    obtain ⟨k0, v0⟩ := hd
    simp only [List.map_cons, List.mem_cons, not_or] at h
    have h1 : ¬ k0 = k := fun e => h.1 e.symm
    simp [map_at, h1, ih h.2]

theorem map_at_freshItemId (m : List (Int × ItemInfo_t)) :
    map_at m (freshItemId m) = .error Exception.out_of_range := by
  apply map_at_absent_of_keys
  intro hmem
  have := (le_foldl_max (m.map (fun kv => kv.1)) (-1)).2 _ hmem
  unfold freshItemId at this
  omega

theorem map_at_append_new (m : List (Int × ItemInfo_t)) (k : Int) (v : ItemInfo_t)
    (h : map_at m k = .error Exception.out_of_range) : map_at (m ++ [(k, v)]) k = .ok v := by
  induction m with
  | nil => simp [map_at]
  | cons hd tl ih =>
    obtain ⟨k0, v0⟩ := hd
    by_cases hk : k0 = k
    · simp [map_at, hk] at h
    · simp only [map_at, hk, if_false] at h
      simp [map_at, hk, ih h]

theorem foldl_insertAwaitingItem_map (l : List AwaitingAdd_t) (s : CShellBrowser) :
    (l.foldl insertAwaitingItem s).m_itemInfoMap = s.m_itemInfoMap := by
  induction l generalizing s with
  | nil => rfl
  | cons a tl ih =>
    simp only [List.foldl_cons]
    rw [ih]
    unfold insertAwaitingItem
    split <;> rfl

/-- The append path of `AddItem`, flushed: the new row is the last one and no
marker with the display name is left. -/
theorem append_path_flushed (env : Shell) (s : CShellBrowser) (rel : PIDL) (name : String)
    (b : Bool) :
    ∃ lv row,
      (InsertAwaitingItems (AddItemInternal_pidl env s s.m_pidlDirectory rel name (-1) false)
        b).m_hListView = lv ++ [row] ∧
      row.lParam = freshItemId s.m_itemInfoMap ∧
      (s.m_AwaitingAddList = [] → lv = s.m_hListView) ∧
      ∀ d ∈ (InsertAwaitingItems (AddItemInternal_pidl env s s.m_pidlDirectory rel name (-1) false)
        b).m_DroppedFileNameList, d.szFileName ≠ name := by
  have hat := map_at_append_new s.m_itemInfoMap (freshItemId s.m_itemInfoMap)
    { pidlComplete := ILCombine s.m_pidlDirectory rel, pridl := rel,
      wfd := env.GetFindData (ILCombine s.m_pidlDirectory rel), szDisplayName := name }
    (map_at_freshItemId s.m_itemInfoMap)
  have hmid := foldl_insertAwaitingItem_map s.m_AwaitingAddList
    { s with
      m_itemInfoMap := s.m_itemInfoMap ++ [(freshItemId s.m_itemInfoMap,
        { pidlComplete := ILCombine s.m_pidlDirectory rel, pridl := rel,
          wfd := env.GetFindData (ILCombine s.m_pidlDirectory rel), szDisplayName := name })]
      m_AwaitingAddList := s.m_AwaitingAddList ++
        [{ iItem := -1, iItemInternal := freshItemId s.m_itemInfoMap, bPosition := false }] }
  simp only [] at hmid
  refine ⟨(s.m_AwaitingAddList.foldl insertAwaitingItem
      { s with
        m_itemInfoMap := s.m_itemInfoMap ++ [(freshItemId s.m_itemInfoMap,
          { pidlComplete := ILCombine s.m_pidlDirectory rel, pridl := rel,
            wfd := env.GetFindData (ILCombine s.m_pidlDirectory rel), szDisplayName := name })]
        m_AwaitingAddList := s.m_AwaitingAddList ++
          [{ iItem := -1, iItemInternal := freshItemId s.m_itemInfoMap,
             bPosition := false }] }).m_hListView,
    { lParam := freshItemId s.m_itemInfoMap, selected := false,
      cut := decide ((env.GetFindData (ILCombine s.m_pidlDirectory rel)).dwFileAttributes &&&
        FILE_ATTRIBUTE_HIDDEN = FILE_ATTRIBUTE_HIDDEN),
      overlay := 0, iImage := 0, pszText := name }, ?_, rfl, ?_, ?_⟩
  · simp only [InsertAwaitingItems, AddItemInternal_pidl, AddItemInternal, SetItemInformation,
      List.foldl_append, List.foldl_cons, List.foldl_nil]
    simp only [insertAwaitingItem, hmid, hat, ListView_InsertItem]
    simp
  · intro hq
    simp [hq]
  · intro d hmem
    simp only [InsertAwaitingItems, AddItemInternal_pidl, AddItemInternal, SetItemInformation,
      List.foldl_append, List.foldl_cons, List.foldl_nil] at hmem
    simp only [insertAwaitingItem, hmid, hat] at hmem
    have := (List.mem_filter.mp hmem).2
    simpa using this

/-- C9: an `AddItem` whose display name equals the file name of a dropped-file
marker takes the append path whether or not sorted insertion is enabled: the new
row is the last row of the list view (behind the rows that were there, when
nothing else was waiting to be inserted). The flush consumes the marker:
afterwards no marker carries that name, so the scan of a second `AddItem` with
the same display name finds nothing. -/
theorem C9_dropped_item_appended (env : Shell) (s : CShellBrowser) (pidl rel : PIDL)
    (name : String)
    (hb : env.SHBindToParent pidl = some rel)
    (hn : (if s.m_bVirtualFolder then env.GetDisplayNameOf pidl rel SHGDN_INFOLDER
      else env.GetDisplayNameOf pidl rel (SHGDN_INFOLDER ||| SHGDN_FORPARSING)) = some name)
    (hd : ∃ d ∈ s.m_DroppedFileNameList, d.szFileName = name) :
    AddItem env s pidl =
      InsertAwaitingItems (AddItemInternal_pidl env s s.m_pidlDirectory rel name (-1) false)
        s.m_bShowInGroups ∧
    (∃ lv row, (AddItem env s pidl).m_hListView = lv ++ [row] ∧
      row.lParam = freshItemId s.m_itemInfoMap ∧
      (s.m_AwaitingAddList = [] → lv = s.m_hListView)) ∧
    (∀ d ∈ (AddItem env s pidl).m_DroppedFileNameList, d.szFileName ≠ name) ∧
    isDropped (AddItem env s pidl).m_DroppedFileNameList name = false := by
  have hdrop : isDropped s.m_DroppedFileNameList name = true :=
    (isDropped_eq_true_iff _ _).mpr hd
  have hne : s.m_DroppedFileNameList.isEmpty = false := by
    obtain ⟨d, hmem, _⟩ := hd
    cases hl : s.m_DroppedFileNameList with
    | nil => rw [hl] at hmem; cases hmem
    | cons a tl => rfl
  have hpath : AddItem env s pidl =
      InsertAwaitingItems (AddItemInternal_pidl env s s.m_pidlDirectory rel name (-1) false)
        s.m_bShowInGroups := by
    unfold AddItem
    simp only [hb, hn, hne, hdrop, Bool.not_false, Bool.not_true, Bool.and_false, if_true,
      Bool.false_eq_true, if_false]
    rfl
  obtain ⟨lv, row, hrow, hlp, hlv, hmark⟩ := append_path_flushed env s rel name s.m_bShowInGroups
  have hall : ∀ d ∈ (AddItem env s pidl).m_DroppedFileNameList, d.szFileName ≠ name := by
    intro d hmem
    rw [hpath] at hmem
    exact hmark d hmem
  refine ⟨hpath, ⟨lv, row, by rw [hpath]; exact hrow, hlp, hlv⟩, hall, ?_⟩
  cases hx : isDropped (AddItem env s pidl).m_DroppedFileNameList name with
  | false => rfl
  | true =>
    obtain ⟨d, hmem, hname⟩ := (isDropped_eq_true_iff _ _).mp hx
    exact absurd hname (hall d hmem)

/-- C9 at `sessionDrop`: sorted insertion is enabled and a marker waits for
`d.txt`; the create notification for `d.txt` appends it and consumes the
marker. -/
theorem C9_dropped_item_appended_witness :
    sessionDrop.m_bInsertSorted = true ∧
    AddItem shell0 sessionDrop pidlD =
      InsertAwaitingItems
        (AddItemInternal_pidl shell0 sessionDrop sessionDrop.m_pidlDirectory [14] "d.txt" (-1) false)
        sessionDrop.m_bShowInGroups ∧
    (∃ lv row, (AddItem shell0 sessionDrop pidlD).m_hListView = lv ++ [row] ∧
      row.lParam = freshItemId sessionDrop.m_itemInfoMap ∧
      (sessionDrop.m_AwaitingAddList = [] → lv = sessionDrop.m_hListView)) ∧
    (∀ d ∈ (AddItem shell0 sessionDrop pidlD).m_DroppedFileNameList, d.szFileName ≠ "d.txt") ∧
    isDropped (AddItem shell0 sessionDrop pidlD).m_DroppedFileNameList "d.txt" = false :=
  ⟨rfl, C9_dropped_item_appended shell0 sessionDrop pidlD [14] "d.txt" rfl rfl
    ⟨{ szFileName := "d.txt" }, by decide, rfl⟩⟩

/-! ## Renaming in place -/

theorem map_modify_keys (m : List (Int × ItemInfo_t)) (k : Int) (f : ItemInfo_t → ItemInfo_t) :
    (map_modify m k f).map (fun kv => kv.1) = m.map (fun kv => kv.1) := by
  induction m with
  | nil => rfl
  | cons hd tl ih =>
    obtain ⟨k0, v0⟩ := hd
    by_cases hk : k0 = k
    · simp [map_modify, hk]
    · simp [map_modify, hk, ih]

theorem map_at_modify_ne (m : List (Int × ItemInfo_t)) (k j : Int) (f : ItemInfo_t → ItemInfo_t)
    (h : j ≠ k) : map_at (map_modify m k f) j = map_at m j := by
  induction m with
  | nil => rfl
  | cons hd tl ih =>
    obtain ⟨k0, v0⟩ := hd
    by_cases hk : k0 = k
    · have hj : ¬ k = j := fun e => h e.symm
      simp [map_modify, map_at, hk, hj]
    · by_cases hj : k0 = j
      · subst hj
        simp [map_modify, map_at, h]
      · simp [map_modify, map_at, hk, hj, ih]

theorem RenameItem_record_eq (s : CShellBrowser) (id : Int) (pidlNew rel : PIDL) (name : String) :
    (RenameItem_record s id pidlNew rel name).m_itemInfoMap =
      map_modify s.m_itemInfoMap id (renamedRecord pidlNew rel name) := rfl

/-- The body of `if(iItem != -1)` in `RenameItem` returns and leaves the store
and the three counters as they were. -/
theorem RenameItem_row_frame (env : Shell) (s : CShellBrowser) (id iItem : Int) (iIcon : Nat)
    (info : ItemInfo_t) (h : map_at s.m_itemInfoMap id = .ok info) :
    ∃ t, RenameItem_row env s id iItem iIcon = .ok t ∧
      t.m_itemInfoMap = s.m_itemInfoMap ∧ t.m_nTotalItems = s.m_nTotalItems ∧
      t.m_ulTotalDirSize = s.m_ulTotalDirSize ∧
      t.m_ulFileSelectionSize = s.m_ulFileSelectionSize := by
  unfold RenameItem_row ProcessItemFileName IsFileFiltered
  simp only [h]
  split
  · exact ⟨_, rfl, rfl, rfl, rfl, rfl⟩
  · exact ⟨_, rfl, rfl, rfl, rfl, rfl⟩

/-- What `RenameItem` does when the old path is in the store: it returns; either
nothing of the store and the counters changed, or the record under the id of
the old path was rewritten by `renamedRecord` and nothing else of the store and
the counters changed. -/
theorem RenameItem_found (env : Shell) (s : CShellBrowser) (pidlOld pidlNew : PIDL)
    (h : LocateFileItemInternalIndex s pidlOld ≠ -1) :
    ∃ t, RenameItem env s pidlOld pidlNew = .ok t ∧
      t.m_nTotalItems = s.m_nTotalItems ∧
      t.m_ulTotalDirSize = s.m_ulTotalDirSize ∧
      t.m_ulFileSelectionSize = s.m_ulFileSelectionSize ∧
      (t.m_itemInfoMap = s.m_itemInfoMap ∨
        ∃ rel name, t.m_itemInfoMap =
          map_modify s.m_itemInfoMap (LocateFileItemInternalIndex s pidlOld)
            (renamedRecord pidlNew rel name)) := by
  obtain ⟨info, hinfo⟩ := locate_live s pidlOld h
  unfold RenameItem
  simp only [h, if_false, hinfo]
  cases env.SHBindToParent pidlNew with
  | none => exact ⟨s, rfl, rfl, rfl, rfl, Or.inl rfl⟩
  | some rel =>
    simp only []
    cases env.GetDisplayName pidlNew (SHGDN_INFOLDER ||| SHGDN_FORPARSING) with
    | none => exact ⟨s, rfl, rfl, rfl, rfl, Or.inl rfl⟩
    | some name =>
      simp only []
      cases env.SHGetFileInfo pidlNew with
      | none => exact ⟨_, rfl, rfl, rfl, rfl, Or.inr ⟨rel, name, rfl⟩⟩
      | some iIcon =>
        simp only []
        split
        · have hrec : map_at (RenameItem_record s (LocateFileItemInternalIndex s pidlOld)
              pidlNew rel name).m_itemInfoMap (LocateFileItemInternalIndex s pidlOld) =
              .ok (renamedRecord pidlNew rel name info) := by
            rw [RenameItem_record_eq, map_at_modify, hinfo]
            rfl
          obtain ⟨t, ht, hm, hn, htot, hsel⟩ := RenameItem_row_frame env _ _
            (ListView_FindItem (RenameItem_record s (LocateFileItemInternalIndex s pidlOld)
              pidlNew rel name).m_hListView (LocateFileItemInternalIndex s pidlOld))
            iIcon _ hrec
          exact ⟨t, ht, hn, htot, hsel, Or.inr ⟨rel, name, hm⟩⟩
        · exact ⟨_, rfl, rfl, rfl, rfl, Or.inr ⟨rel, name, rfl⟩⟩

/-- C11: `RenameItem` mutates the record in place. When the old path is found in
the store, `RenameItem` returns and afterwards the internal identifiers of the
store are the same, in the same order (no record removed or added; the item is
still stored under its identifier), the item count, the total directory size and
the selection size are unchanged, the record under every other identifier is
unchanged, and the file size and the attributes of the renamed record are
unchanged. When the old path is not found, `RenameItem` returns the state as it
was. -/
theorem C11_rename_in_place (env : Shell) (s : CShellBrowser) (pidlOld pidlNew : PIDL) :
    (LocateFileItemInternalIndex s pidlOld = -1 → RenameItem env s pidlOld pidlNew = .ok s) ∧
    (LocateFileItemInternalIndex s pidlOld ≠ -1 →
      ∃ t before after, RenameItem env s pidlOld pidlNew = .ok t ∧
        map_at s.m_itemInfoMap (LocateFileItemInternalIndex s pidlOld) = .ok before ∧
        map_at t.m_itemInfoMap (LocateFileItemInternalIndex s pidlOld) = .ok after ∧
        t.m_itemInfoMap.map (fun kv => kv.1) = s.m_itemInfoMap.map (fun kv => kv.1) ∧
        t.m_nTotalItems = s.m_nTotalItems ∧
        t.m_ulTotalDirSize = s.m_ulTotalDirSize ∧
        t.m_ulFileSelectionSize = s.m_ulFileSelectionSize ∧
        (∀ j, j ≠ LocateFileItemInternalIndex s pidlOld →
          map_at t.m_itemInfoMap j = map_at s.m_itemInfoMap j) ∧
        fileSize after = fileSize before ∧
        after.wfd.nFileSizeLow = before.wfd.nFileSizeLow ∧
        after.wfd.nFileSizeHigh = before.wfd.nFileSizeHigh ∧
        after.wfd.dwFileAttributes = before.wfd.dwFileAttributes) := by
  constructor
  · intro h
    simp [RenameItem, h]
  · intro h
    obtain ⟨info, hinfo⟩ := locate_live s pidlOld h
    obtain ⟨t, ht, hn, htot, hsel, hm⟩ := RenameItem_found env s pidlOld pidlNew h
    rcases hm with hm | ⟨rel, name, hm⟩
    · refine ⟨t, info, info, ht, hinfo, by rw [hm]; exact hinfo, by rw [hm], hn, htot, hsel,
        ?_, rfl, rfl, rfl, rfl⟩
      intro j _
      rw [hm]
    · refine ⟨t, info, renamedRecord pidlNew rel name info, ht, hinfo, ?_, ?_, hn, htot, hsel,
        ?_, rfl, rfl, rfl, rfl⟩
      · rw [hm, map_at_modify, hinfo]
        rfl
      · rw [hm, map_modify_keys]
      · intro j hj
        rw [hm, map_at_modify_ne _ _ _ _ hj]

/-- The rename of `a.txt` to `d.txt` in `session0`: the record keeps its id 0,
its size and its attributes and gets the new path and name; with a filter that
hides the item its row leaves the view and the counters stay. -/
theorem scenario_rename_a :
    (∃ t, RenameItem shell0 session0 pidlA pidlD = .ok t ∧
      map_at t.m_itemInfoMap 0 = .ok (mkInfo pidlD "d.txt" 10) ∧
      t.m_hListView.length = 3 ∧ t.m_nTotalItems = 3 ∧ t.m_ulTotalDirSize = 35) ∧
    (∃ t, RenameItem shellFiltered session0 pidlA pidlD = .ok t ∧
      map_at t.m_itemInfoMap 0 = .ok (mkInfo pidlD "d.txt" 10) ∧
      t.m_hListView.length = 2 ∧ t.m_nTotalItems = 3 ∧ t.m_ulTotalDirSize = 35) :=
  ⟨⟨_, rfl, rfl, by decide, by decide, by decide⟩, ⟨_, rfl, rfl, by decide, by decide, by decide⟩⟩

/-- C11 at `session0`: the path of `C:\Other\new.txt` is not in the store and
`RenameItem` changes nothing; the rename of `a.txt` to `d.txt` is done in place,
also under a filter that hides the renamed item. -/
theorem C11_rename_in_place_witness :
    RenameItem shell0 session0 pidlNew pidlD = .ok session0 ∧
    (∃ t before after, RenameItem shell0 session0 pidlA pidlD = .ok t ∧
      map_at session0.m_itemInfoMap (LocateFileItemInternalIndex session0 pidlA) = .ok before ∧
      map_at t.m_itemInfoMap (LocateFileItemInternalIndex session0 pidlA) = .ok after ∧
      t.m_itemInfoMap.map (fun kv => kv.1) = session0.m_itemInfoMap.map (fun kv => kv.1) ∧
      t.m_nTotalItems = session0.m_nTotalItems ∧
      t.m_ulTotalDirSize = session0.m_ulTotalDirSize ∧
      t.m_ulFileSelectionSize = session0.m_ulFileSelectionSize ∧
      (∀ j, j ≠ LocateFileItemInternalIndex session0 pidlA →
        map_at t.m_itemInfoMap j = map_at session0.m_itemInfoMap j) ∧
      fileSize after = fileSize before ∧
      after.wfd.nFileSizeLow = before.wfd.nFileSizeLow ∧
      after.wfd.nFileSizeHigh = before.wfd.nFileSizeHigh ∧
      after.wfd.dwFileAttributes = before.wfd.dwFileAttributes) ∧
    (∃ t before after, RenameItem shellFiltered session0 pidlA pidlD = .ok t ∧
      map_at session0.m_itemInfoMap (LocateFileItemInternalIndex session0 pidlA) = .ok before ∧
      map_at t.m_itemInfoMap (LocateFileItemInternalIndex session0 pidlA) = .ok after ∧
      t.m_itemInfoMap.map (fun kv => kv.1) = session0.m_itemInfoMap.map (fun kv => kv.1) ∧
      t.m_nTotalItems = session0.m_nTotalItems ∧
      t.m_ulTotalDirSize = session0.m_ulTotalDirSize ∧
      t.m_ulFileSelectionSize = session0.m_ulFileSelectionSize ∧
      (∀ j, j ≠ LocateFileItemInternalIndex session0 pidlA →
        map_at t.m_itemInfoMap j = map_at session0.m_itemInfoMap j) ∧
      fileSize after = fileSize before ∧
      after.wfd.nFileSizeLow = before.wfd.nFileSizeLow ∧
      after.wfd.nFileSizeHigh = before.wfd.nFileSizeHigh ∧
      after.wfd.dwFileAttributes = before.wfd.dwFileAttributes) :=
  ⟨(C11_rename_in_place shell0 session0 pidlNew pidlD).1 (by decide),
   (C11_rename_in_place shell0 session0 pidlA pidlD).2 (by decide),
   (C11_rename_in_place shellFiltered session0 pidlA pidlD).2 (by decide)⟩

end ExplorerPP
